import Mathlib

/-!
Verification of the Särtshöga Vingård availability monitor
(src/heroku_monitor.py) against its natural-language specification.

The Python program is shallowly embedded below:
* HTML entity escaping/unescaping models Python html.escape / html.unescape
  restricted to the five entities html.escape emits.
* A small JSON value type with an executable serializer and a fueled
  recursive-descent reader models json.dumps / json.loads for the documents
  the monitor handles.
* The fetcher, the extraction cascade of extract_sirvoy_data, the two
  signature analyzers and check_availability are modelled as pure state
  transformers.  Network and wall-clock inputs (fetch outcomes, regex match
  captures, datetime.now) are passed in as explicit data.
-/

/-- Apostrophe character, written by its code point. -/
def aposChar : Char := Char.ofNat 39

/-- Left curly brace character. -/
def lbrace : Char := Char.ofNat 123

/-- Right curly brace character. -/
def rbrace : Char := Char.ofNat 125

/-- Model of Python html.escape applied to one character (quote=True):
the five characters escaped by html.escape are mapped to their entities. -/
def escapeChar (c : Char) : List Char :=
  if c = '&' then ['&', 'a', 'm', 'p', ';']
  else if c = '<' then ['&', 'l', 't', ';']
  else if c = '>' then ['&', 'g', 't', ';']
  else if c = '"' then ['&', 'q', 'u', 'o', 't', ';']
  else if c = aposChar then ['&', '#', 'x', '2', '7', ';']
  else [c]

/-- Model of Python html.escape over a character list. -/
def htmlEscape : List Char → List Char
  | [] => []
  | c :: r => escapeChar c ++ htmlEscape r

/-- Recognize one of the five entity bodies right after an ampersand,
returning the decoded character and the remaining input. -/
def entityMatch : List Char → Option (Char × List Char)
  | 'a' :: 'm' :: 'p' :: ';' :: r2 => some ('&', r2)
  | 'l' :: 't' :: ';' :: r2 => some ('<', r2)
  | 'g' :: 't' :: ';' :: r2 => some ('>', r2)
  | 'q' :: 'u' :: 'o' :: 't' :: ';' :: r2 => some ('"', r2)
  | '#' :: 'x' :: '2' :: '7' :: ';' :: r2 => some (aposChar, r2)
  | _ => none

/-- Fueled worker for html.unescape; the fuel bounds the number of decoded
output characters and is always called with enough fuel. -/
def htmlUnescapeF : Nat → List Char → List Char
  | 0, l => l
  | _ + 1, [] => []
  | f + 1, c :: r =>
    if c = '&' then
      match entityMatch r with
      | some (d, r2) => d :: htmlUnescapeF f r2
      | none => '&' :: htmlUnescapeF f r
    else c :: htmlUnescapeF f r

/-- Model of Python html.unescape (line 130 of the source), restricted to the
five entities produced by html.escape, which are the only ones a well-formed
escaped attribute contains. -/
def htmlUnescape (l : List Char) : List Char := htmlUnescapeF l.length l

/-- JSON values as handled by the monitor: the widget payloads use objects,
arrays, strings, booleans, nulls and non-negative integers. -/
inductive JsonVal where
  | jnull : JsonVal
  | jbool (b : Bool) : JsonVal
  | jnum (n : Nat) : JsonVal
  | jstr (s : String) : JsonVal
  | jarr (xs : List JsonVal) : JsonVal
  | jobj (fields : List (String × JsonVal)) : JsonVal

/-- Digit character for a value below ten. -/
def digitChr (d : Nat) : Char := Char.ofNat (48 + d)

/-- Decimal digits of a natural number, most significant first
(the form json.dumps emits). -/
def natChars (n : Nat) : List Char :=
  if _ : n < 10 then [digitChr n]
  else natChars (n / 10) ++ [digitChr (n % 10)]
decreasing_by exact Nat.div_lt_self (by omega) (by omega)

mutual

/-- Model of json.dumps (compact form, no spaces) on the JSON values above. -/
def jsonDumps : JsonVal → List Char
  | .jnull => 'n' :: 'u' :: 'l' :: 'l' :: []
  | .jbool true => 't' :: 'r' :: 'u' :: 'e' :: []
  | .jbool false => 'f' :: 'a' :: 'l' :: 's' :: 'e' :: []
  | .jnum n => natChars n
  | .jstr s => '"' :: s.data ++ ['"']
  | .jarr [] => '[' :: ']' :: []
  | .jarr (x :: xs) => '[' :: (jsonDumps x ++ dumpsTail xs) ++ [']']
  | .jobj [] => [lbrace, rbrace]
  | .jobj (p :: ps) => lbrace :: (dumpPair p ++ dumpsPairsTail ps) ++ [rbrace]

/-- Comma-separated dump of the remaining array elements. -/
def dumpsTail : List JsonVal → List Char
  | [] => []
  | x :: xs => ',' :: (jsonDumps x ++ dumpsTail xs)

/-- Dump of a single key/value pair. -/
def dumpPair : String × JsonVal → List Char
  | (k, v) => '"' :: k.data ++ '"' :: ':' :: jsonDumps v

/-- Comma-separated dump of the remaining object pairs. -/
def dumpsPairsTail : List (String × JsonVal) → List Char
  | [] => []
  | p :: ps => ',' :: (dumpPair p ++ dumpsPairsTail ps)

end

/-- A character that may appear inside a serialized string body without
escaping: anything but the quote and the backslash. -/
def plainChar (c : Char) : Bool := !(c = '"' || c = '\\')

mutual

/-- JSON values whose strings need no escaping when serialized. -/
def plainJson : JsonVal → Bool
  | .jnull => true
  | .jbool _ => true
  | .jnum _ => true
  | .jstr s => s.data.all plainChar
  | .jarr xs => plainList xs
  | .jobj ps => plainPairs ps

/-- plainJson over a list of values. -/
def plainList : List JsonVal → Bool
  | [] => true
  | x :: xs => plainJson x && plainList xs

/-- plainJson over object pairs, keys included. -/
def plainPairs : List (String × JsonVal) → Bool
  | [] => true
  | (k, v) :: ps => k.data.all plainChar && plainJson v && plainPairs ps

end

mutual

/-- Structural size of a JSON value, used to bound the reader fuel. -/
def jsize : JsonVal → Nat
  | .jnull => 1
  | .jbool _ => 1
  | .jnum _ => 1
  | .jstr _ => 1
  | .jarr xs => 1 + jsizeL xs
  | .jobj ps => 1 + jsizeP ps

/-- jsize over a list of values. -/
def jsizeL : List JsonVal → Nat
  | [] => 0
  | x :: xs => 1 + jsize x + jsizeL xs

/-- jsize over object pairs. -/
def jsizeP : List (String × JsonVal) → Nat
  | [] => 0
  | (_, w) :: ps => 1 + jsize w + jsizeP ps

end

/-- String-body reader: consume characters up to the closing quote. -/
def pStrBodyGo (acc : List Char) : List Char → Option (String × List Char)
  | [] => none
  | c :: r => if c = '"' then some (String.mk acc, r) else pStrBodyGo (acc ++ [c]) r

/-- Greedy digit-run reader with accumulator, as a decimal value. -/
def pNumGo (acc : Nat) : List Char → Nat × List Char
  | [] => (acc, [])
  | c :: r => if c.isDigit then pNumGo (acc * 10 + (c.toNat - 48)) r else (acc, c :: r)

mutual

/-- Fueled recursive-descent reader for the JSON fragment above; models
json.loads on the documents the monitor handles. -/
def pJson : Nat → List Char → Option (JsonVal × List Char)
  | 0, _ => none
  | _ + 1, [] => none
  | f + 1, c :: r =>
    if c = 'n' then
      match r with
      | 'u' :: 'l' :: 'l' :: r2 => some (.jnull, r2)
      | _ => none
    else if c = 't' then
      match r with
      | 'r' :: 'u' :: 'e' :: r2 => some (.jbool true, r2)
      | _ => none
    else if c = 'f' then
      match r with
      | 'a' :: 'l' :: 's' :: 'e' :: r2 => some (.jbool false, r2)
      | _ => none
    else if c = '"' then
      match pStrBodyGo [] r with
      | some (s, r2) => some (.jstr s, r2)
      | none => none
    else if c = '[' then
      match r with
      | [] => none
      | c2 :: r2 =>
        if c2 = ']' then some (.jarr [], r2)
        else
          match pJson f (c2 :: r2) with
          | some (j, r3) =>
            match pArrTail f r3 with
            | some (js, r4) => some (.jarr (j :: js), r4)
            | none => none
          | none => none
    else if c = lbrace then
      match r with
      | [] => none
      | c2 :: r2 =>
        if c2 = rbrace then some (.jobj [], r2)
        else
          match pPair f (c2 :: r2) with
          | some (p, r3) =>
            match pObjTail f r3 with
            | some (ps, r4) => some (.jobj (p :: ps), r4)
            | none => none
          | none => none
    else if c.isDigit then
      some (.jnum (pNumGo 0 (c :: r)).1, (pNumGo 0 (c :: r)).2)
    else none

/-- Reader for the rest of an array after one element: a comma and another
element, repeatedly, then the closing bracket. -/
def pArrTail : Nat → List Char → Option (List JsonVal × List Char)
  | 0, _ => none
  | _ + 1, [] => none
  | f + 1, c :: r =>
    if c = ']' then some ([], r)
    else if c = ',' then
      match pJson f r with
      | some (j, r2) =>
        match pArrTail f r2 with
        | some (js, r3) => some (j :: js, r3)
        | none => none
      | none => none
    else none

/-- Reader for one quoted key, a colon, and a value. -/
def pPair : Nat → List Char → Option ((String × JsonVal) × List Char)
  | 0, _ => none
  | _ + 1, [] => none
  | f + 1, c :: r =>
    if c = '"' then
      match pStrBodyGo [] r with
      | some (k, r2) =>
        match r2 with
        | ':' :: r3 =>
          match pJson f r3 with
          | some (v, r4) => some ((k, v), r4)
          | none => none
        | _ => none
      | none => none
    else none

/-- Reader for the rest of an object after one pair. -/
def pObjTail : Nat → List Char → Option (List (String × JsonVal) × List Char)
  | 0, _ => none
  | _ + 1, [] => none
  | f + 1, c :: r =>
    if c = rbrace then some ([], r)
    else if c = ',' then
      match pPair f r with
      | some (p, r2) =>
        match pObjTail f r2 with
        | some (ps, r3) => some (p :: ps, r3)
        | none => none
      | none => none
    else none

end

/-- Model of json.loads: read one value and require full consumption. -/
def jsonParse (cs : List Char) : Option JsonVal :=
  match pJson (cs.length + 1) cs with
  | some (j, []) => some j
  | _ => none

/-- The decimal-digit fold pNumGo performs on a digit run. -/
def digitsFold (acc : Nat) (ds : List Char) : Nat :=
  ds.foldl (fun a c => a * 10 + (c.toNat - 48)) acc

/-- Outcome of one requests.get call inside make_request: either a raised
requests.RequestException, or a response with a status code. -/
inductive AttemptOutcome where
  | failure (err : String)
  | response (status : Nat)

/-- Observable trace of make_request: the timeout passed to each issued
request, and the seconds slept between consecutive attempts. -/
structure FetchTrace where
  requestTimeouts : List Nat
  sleeps : List Nat
deriving DecidableEq

/-- Loop body of make_request (source lines 79-88): iterate over the attempt
indices, return the first response that survives raise_for_status, re-raise
the last error on the final attempt, and sleep 2 ^ attempt otherwise.
raise_for_status raises exactly for status codes in [400, 600). -/
def make_request_loop (oracle : Nat → AttemptOutcome) : List Nat → Except String Nat × FetchTrace
  | [] => (Except.error "loop exhausted", ⟨[], []⟩)
  | attempt :: rest =>
    match oracle attempt with
    | .response s =>
      if 400 ≤ s ∧ s < 600 then
        if rest.isEmpty then (Except.error ("HTTPError " ++ toString s), ⟨[30], []⟩)
        else
          let nxt := make_request_loop oracle rest
          (nxt.1, ⟨30 :: nxt.2.requestTimeouts, 2 ^ attempt :: nxt.2.sleeps⟩)
      else (Except.ok s, ⟨[30], []⟩)
    | .failure e =>
      if rest.isEmpty then (Except.error e, ⟨[30], []⟩)
      else
        let nxt := make_request_loop oracle rest
        (nxt.1, ⟨30 :: nxt.2.requestTimeouts, 2 ^ attempt :: nxt.2.sleeps⟩)

/-- Model of make_request (source lines 70-88): for attempt in range(3),
requests.get with a fixed timeout of 30 seconds. -/
def make_request (oracle : Nat → AttemptOutcome) : Except String Nat × FetchTrace :=
  make_request_loop oracle [0, 1, 2]

/-- The five named regex patterns of Method 2 (source lines 142-148). -/
inductive PatternId where
  | invalidCheckinDays
  | blockedDates
  | availableDates
  | bookingData
  | calendarData
deriving DecidableEq

/-- A widget signature: the fields extract_sirvoy_data stores for change
detection (source lines 307-324), as consumed by analyze_widget_data. -/
structure WidgetSig where
  hash : Int
  size : Int
  dateInputs : Nat
  selectElements : Nat
  buttons : Nat
  calendarElements : Nat
  keywords : List String
deriving DecidableEq

/-- A fetched widget document, as far as extract_sirvoy_data observes it.
pageServerData is the data-page-server-data attribute when the div exists and
the attribute is non-empty.  scriptMatches is the ordered stream of regex
first captures re.findall produces over the inline scripts, with the pattern
each capture belongs to.  apiSuccesses abstracts Method 3 (source lines
174-264, every per-endpoint failure is caught and skipped there) as the
ordered list of endpoints whose response was accepted together with the
payload built from it.  The remaining fields are what Method 4 counts and
hashes: hash(widget_text) is carried as an oracle field since Python's
string hash is opaque. -/
structure Document where
  pageServerData : Option (List Char)
  scriptMatches : List (PatternId × List Char)
  apiSuccesses : List (String × JsonVal)
  dateInputs : Nat
  selectElements : Nat
  buttons : Nat
  calendarTables : Nat
  calendarDivs : Nat
  widgetText : String
  textHash : Int
  rawLen : Nat

/-- The availability keyword vocabulary (source lines 281-285). -/
def availabilityKeywords : List String :=
  ["tillgänglig", "available", "ledig", "ledigt",
   "fullbokad", "fully booked", "unavailable",
   "välj datum", "select date", "choose date"]

/-- Whether pat is a prefix of s, over characters. -/
def startsWithList : List Char → List Char → Bool
  | [], _ => true
  | _ :: _, [] => false
  | p :: ps, c :: cs => p = c && startsWithList ps cs

/-- Whether pat occurs as a contiguous substring of s (Python's in). -/
def containsSub : List Char → List Char → Bool
  | [], pat => pat.isEmpty
  | c :: tail, pat => startsWithList pat (c :: tail) || containsSub tail pat

/-- Python str.lower over the character list model. -/
def lowerStr (s : String) : String := String.mk (s.data.map Char.toLower)

/-- Python: keyword in widget_text.lower(). -/
def textContainsKeyword (text k : String) : Bool :=
  containsSub (lowerStr text).data k.data

/-- The widget signature Method 4 builds from a document
(source lines 266-324). -/
def widgetSignatureOf (doc : Document) : WidgetSig :=
  { hash := doc.textHash
    size := (doc.rawLen : Int)
    dateInputs := doc.dateInputs
    selectElements := doc.selectElements
    buttons := doc.buttons
    calendarElements := doc.calendarTables + doc.calendarDivs
    keywords := availabilityKeywords.filter (fun k => textContainsKeyword doc.widgetText k) }

/-- Method 2 (source lines 136-172): walk the regex captures in order; a
capture that fails json.loads is skipped (the JSONDecodeError is caught
locally, line 170); a parsed capture returns data only for the
invalidCheckinDays pattern, the other patterns are logged and skipped. -/
def scanScripts : List (PatternId × List Char) → Option JsonVal
  | [] => none
  | (pid, cap) :: rest =>
    match jsonParse cap with
    | some j => if pid = PatternId.invalidCheckinDays then some j else scanScripts rest
    | none => scanScripts rest

/-- Result of extract_sirvoy_data: data found by Method 1 (the embedded
attribute, returned raw), Method 2 (script regex, tagged
_source = sirvoy_widget_script), Method 3 (API, tagged _source = sirvoy_api_*),
the Method 4 widget signature, or the jump into
extract_sirvoy_data_fallback taken by the outer except handler
(source lines 326-331). -/
inductive ExtractOutcome where
  | plainData (j : JsonVal)
  | scriptData (j : JsonVal)
  | apiData (endpointName : String) (j : JsonVal)
  | widgetMonitoring (sig : WidgetSig)
  | pageFallback

/-- Model of extract_sirvoy_data (source lines 90-331) on a fetched document.
Method 1: if the pageServerData attribute exists, html.unescape then
json.loads it and return the result as-is; a parse failure here is NOT caught
locally — it propagates to the outer except (line 326) which falls back to
page monitoring, so Methods 2-4 are never tried.  Method 2: scanScripts.
Method 3: first accepted API endpoint.  Method 4: the widget signature,
built from total operations only. -/
def extract_sirvoy_data (doc : Document) : ExtractOutcome :=
  match doc.pageServerData with
  | some attr =>
    match jsonParse (htmlUnescape attr) with
    | some j => ExtractOutcome.plainData j
    | none => ExtractOutcome.pageFallback
  | none =>
    match scanScripts doc.scriptMatches with
    | some j => ExtractOutcome.scriptData j
    | none =>
      match doc.apiSuccesses with
      | (ep, j) :: _ => ExtractOutcome.apiData ep j
      | [] => ExtractOutcome.widgetMonitoring (widgetSignatureOf doc)

/-- The monitor's mutable state: last_available_dates and check_count from
__init__ (lines 42-44), the lazily created _last_widget_* attributes of
analyze_widget_data (modelled as one optional signature, since they are
created and overwritten together), and the _fallback_page_* attributes of
analyze_page_changes. -/
structure MonitorState where
  lastAvailableDates : Finset String
  checkCount : Nat
  lastWidget : Option WidgetSig
  fallbackPage : Option (Int × Int)
deriving DecidableEq

/-- The state right after __init__: empty date set, zero checks, no widget or
fallback baselines (the hasattr probes fail). -/
def initialState : MonitorState := ⟨∅, 0, none, none⟩

/-- The seven change signals counted by analyze_widget_data
(source lines 576-593): content hash, size beyond 100 bytes, each of the four
element counts separately, and the keyword set. -/
def widgetChangeCount (last cur : WidgetSig) : Nat :=
  (if cur.hash ≠ last.hash then 1 else 0)
  + (if 100 < (cur.size - last.size).natAbs then 1 else 0)
  + (if cur.dateInputs ≠ last.dateInputs then 1 else 0)
  + (if cur.selectElements ≠ last.selectElements then 1 else 0)
  + (if cur.buttons ≠ last.buttons then 1 else 0)
  + (if cur.calendarElements ≠ last.calendarElements then 1 else 0)
  + (if cur.keywords.toFinset ≠ last.keywords.toFinset then 1 else 0)

/-- Model of analyze_widget_data (source lines 544-629): first observation
stores the baseline and returns ([], 1); afterwards, at least 2 of the seven
signals trigger a change, which replaces the baseline and returns the current
date; otherwise state is untouched. -/
def analyze_widget_data (st : MonitorState) (cur : WidgetSig) (today : String) :
    MonitorState × List String × Nat :=
  match st.lastWidget with
  | none => ({ st with lastWidget := some cur }, [], 1)
  | some last =>
    if 2 ≤ widgetChangeCount last cur then
      ({ st with lastWidget := some cur }, [today], 0)
    else (st, [], 1)

/-- Model of analyze_page_changes (source lines 631-660): first observation
baselines; afterwards a hash change OR a size change beyond 500 bytes reports
a change and replaces the baseline. -/
def analyze_page_changes (st : MonitorState) (curHash curSize : Int) (today : String) :
    MonitorState × List String × Nat :=
  match st.fallbackPage with
  | none => ({ st with fallbackPage := some (curHash, curSize) }, [], 1)
  | some (lh, ls) =>
    if curHash ≠ lh ∨ 500 < (curSize - ls).natAbs then
      ({ st with fallbackPage := some (curHash, curSize) }, [today], 0)
    else (st, [], 1)

/-- What check_availability observes from one extraction+analysis, at the
granularity its branches dispatch on: a widget signature
(_monitoring_mode = sirvoy_widget_monitoring), a fallback page fingerprint
(_monitoring_mode = fallback_page_monitoring), or data analyzed by
analyze_real_sirvoy_data, carried with the _source tag (empty when absent)
and the analysis result (available dates, blocked count). -/
inductive ObservedData where
  | widget (sig : WidgetSig)
  | fallbackPage (pageHash pageSize : Int)
  | realData (src : String) (dates : List String) (blockedCount : Nat)

/-- Outcome of one check_availability cycle: the new state, whether
send_notification was called, the boolean return value, and whether the
top-level except handler (line 791) caught the cycle. -/
structure CycleOutcome where
  state : MonitorState
  notified : Bool
  result : Bool
  failed : Bool
deriving DecidableEq

/-- The availability differ (source line 751):
new_dates = current_available - last_available_dates. -/
def availability_diff (previous current : Finset String) : Finset String :=
  current \ previous

/-- Python str.startswith over the character-list model. -/
def strStartsWith (s pre : String) : Bool := startsWithList pre.data s.data

/-- Model of check_availability (source lines 702-793).  check_count is
incremented before the try block; a cycle whose extraction raised is caught,
returns False and changes nothing else.  Widget and fallback observations run
their analyzer; a non-empty change list triggers a notification only when
check_count > 1.  Real data with a sirvoy_ source tag notifies only when the
stored date set is non-empty and the set difference is non-empty, then
overwrites the stored set; real data without the tag falls into the
page-change-style else branch (lines 766-778) and mutates nothing. -/
def check_availability (st : MonitorState) (today : String) (obs : Option ObservedData) :
    CycleOutcome :=
  let st1 := { st with checkCount := st.checkCount + 1 }
  match obs with
  | none => ⟨st1, false, false, true⟩
  | some (ObservedData.widget sig) =>
    let r := analyze_widget_data st1 sig today
    if r.2.1.isEmpty then ⟨r.1, false, false, false⟩
    else if 1 < r.1.checkCount then ⟨r.1, true, true, false⟩
    else ⟨r.1, false, true, false⟩
  | some (ObservedData.fallbackPage h s) =>
    let r := analyze_page_changes st1 h s today
    if r.2.1.isEmpty then ⟨r.1, false, false, false⟩
    else if 1 < r.1.checkCount then ⟨r.1, true, true, false⟩
    else ⟨r.1, false, true, false⟩
  | some (ObservedData.realData src dates _) =>
    if dates.isEmpty then ⟨st1, false, false, false⟩
    else if strStartsWith src "sirvoy_" then
      let cur := dates.toFinset
      let newDates := availability_diff st1.lastAvailableDates cur
      ⟨{ st1 with lastAvailableDates := cur },
        if st1.lastAvailableDates = ∅ then false
        else if newDates = ∅ then false else true,
        true, false⟩
    else
      if 1 < st1.checkCount then ⟨st1, true, true, false⟩
      else ⟨st1, false, true, false⟩

/-- The observation check_availability receives when extraction fell back to
main-page monitoring: a page fingerprint when that second fetch succeeded,
nothing (the cycle-aborting exception) when it also failed. -/
def fallbackObs (pageFetch : Option (Int × Int)) : Option ObservedData :=
  match pageFetch with
  | some (h, s) => some (ObservedData.fallbackPage h s)
  | none => none

/-- One full poll cycle: fetch the widget (none = make_request exhausted its
retries and raised), extract, analyze, detect and notify.  realAnalyze stands
for analyze_real_sirvoy_data, whose output is a list of available dates and a
blocked count; it is passed in because its result depends on the wall clock.
A widget-fetch failure or a Method 1 parse failure jumps to
extract_sirvoy_data_fallback, which performs the page fetch. -/
def poll_cycle (st : MonitorState) (today : String)
    (widgetFetch : Option Document) (pageFetch : Option (Int × Int))
    (realAnalyze : JsonVal → List String × Nat) : CycleOutcome :=
  let obs :=
    match widgetFetch with
    | none => fallbackObs pageFetch
    | some doc =>
      match extract_sirvoy_data doc with
      | ExtractOutcome.plainData j =>
        some (ObservedData.realData "" (realAnalyze j).1 (realAnalyze j).2)
      | ExtractOutcome.scriptData j =>
        some (ObservedData.realData "sirvoy_widget_script" (realAnalyze j).1 (realAnalyze j).2)
      | ExtractOutcome.apiData ep j =>
        some (ObservedData.realData ("sirvoy_api_" ++ ep) (realAnalyze j).1 (realAnalyze j).2)
      | ExtractOutcome.widgetMonitoring sig => some (ObservedData.widget sig)
      | ExtractOutcome.pageFallback => fallbackObs pageFetch
  check_availability st today obs

/-- Restatement of the specification's four signature-mode signals, for
comparison with widgetChangeCount: content hash differs; byte size differs by
more than 100 bytes; AN element count differs (one aggregated signal); the
keyword set differs. -/
def specSignalCount (last cur : WidgetSig) : Nat :=
  (if cur.hash ≠ last.hash then 1 else 0)
  + (if 100 < (cur.size - last.size).natAbs then 1 else 0)
  + (if cur.dateInputs ≠ last.dateInputs ∨ cur.selectElements ≠ last.selectElements
       ∨ cur.buttons ≠ last.buttons ∨ cur.calendarElements ≠ last.calendarElements
     then 1 else 0)
  + (if cur.keywords.toFinset ≠ last.keywords.toFinset then 1 else 0)

/-- Lookup of a key in a JSON object field list. -/
def jsonLookup : List (String × JsonVal) → String → Option JsonVal
  | [], _ => none
  | (k, v) :: rest, key => if k = key then some v else jsonLookup rest key

/-- Whether every element of a JSON array is a string. -/
def isStrList : List JsonVal → Bool
  | [] => true
  | JsonVal.jstr _ :: rest => isStrList rest
  | _ => false

/-- Restatement of the specification's AvailabilitySnapshot shape check, for
comparison with what the code accepts: the six date-range fields are present
and the blocked-date list is a list of date strings (carried either as a JSON
array of strings or, as the widget encodes it, a JSON-string field). -/
def specSnapshotShaped (j : JsonVal) : Bool :=
  match j with
  | JsonVal.jobj fs =>
    (jsonLookup fs "bookFromYear").isSome && (jsonLookup fs "bookFromMonth").isSome
    && (jsonLookup fs "bookFromDay").isSome && (jsonLookup fs "bookUntilYear").isSome
    && (jsonLookup fs "bookUntilMonth").isSome && (jsonLookup fs "bookUntilDay").isSome
    && (match jsonLookup fs "invalidCheckinDays" with
        | some (JsonVal.jarr ds) => isStrList ds
        | some (JsonVal.jstr _) => true
        | _ => false)
  | _ => false

/-- Status classifier of one fetch attempt: the status make_request returns
for it, or none when requests.get raises or raise_for_status fires. -/
def attemptAccepts : AttemptOutcome → Option Nat
  | AttemptOutcome.response s => if 400 ≤ s ∧ s < 600 then none else some s
  | AttemptOutcome.failure _ => none

/-- The error carried by an attempt: the raised exception, or the HTTPError
produced by raise_for_status. -/
def attemptError : AttemptOutcome → String
  | AttemptOutcome.response s => "HTTPError " ++ toString s
  | AttemptOutcome.failure e => e

/-- An all-zero widget signature used in concrete runs. -/
def sigZero : WidgetSig := ⟨0, 0, 0, 0, 0, 0, []⟩

/-- Baseline signature for the signature-mode counterexample. -/
def sigBase : WidgetSig := ⟨1, 1000, 0, 0, 0, 0, []⟩

/-- Signature differing from sigBase in exactly the two element counts
_date_inputs and _select_elements, nothing else. -/
def sigTwoCounts : WidgetSig := ⟨1, 1000, 1, 1, 0, 0, []⟩

/-- A monitor state that has widget-baselined on sigBase. -/
def stBase : MonitorState := ⟨∅, 1, some sigBase, none⟩

/-- A document with no embedded data, no script matches, no API data. -/
def emptyDoc : Document := ⟨none, [], [], 0, 0, 0, 0, 0, "", 0, 0⟩

/-- A document whose data attribute holds malformed JSON while an inline
script carries a parseable invalidCheckinDays capture. -/
def docBadAttr : Document :=
  ⟨some ("[1,2".toList), [(PatternId.invalidCheckinDays, "[]".toList)], [],
    0, 0, 0, 0, 0, "", 0, 0⟩

/-- A document whose data attribute holds well-formed JSON that is not shaped
like an AvailabilitySnapshot. -/
def docNoShape : Document :=
  ⟨some ("[1,2]".toList), [], [], 0, 0, 0, 0, 0, "", 0, 0⟩

/-- A well-formed snapshot payload as the widget would embed it. -/
def snapJson : JsonVal :=
  JsonVal.jobj [("invalidCheckinDays", JsonVal.jarr [JsonVal.jstr "2025-07-10", JsonVal.jstr "2025-07-12"]),
            ("bookFromYear", JsonVal.jnum 2025), ("bookFromMonth", JsonVal.jnum 7),
            ("bookFromDay", JsonVal.jnum 1), ("bookUntilYear", JsonVal.jnum 2026),
            ("bookUntilMonth", JsonVal.jnum 12), ("bookUntilDay", JsonVal.jnum 31)]

/-- A document carrying snapJson HTML-entity-encoded in its data attribute. -/
def docSnap : Document :=
  ⟨some (htmlEscape (jsonDumps snapJson)), [], [], 0, 0, 0, 0, 0, "", 0, 0⟩

theorem htmlEscape_length_ge (s : List Char) : s.length ≤ (htmlEscape s).length := by
  induction s with
  | nil => simp [htmlEscape]
  | cons c r ih =>
    have h1 : 1 ≤ (escapeChar c).length := by
      unfold escapeChar
      split_ifs <;> simp
    simp only [htmlEscape, List.length_append, List.length_cons]
    omega

theorem htmlUnescapeF_htmlEscape (fuel : Nat) (s : List Char) (h : s.length ≤ fuel) :
    htmlUnescapeF fuel (htmlEscape s) = s := by
  induction s generalizing fuel with
  | nil =>
    cases fuel <;> simp [htmlEscape, htmlUnescapeF]
  | cons c r ih =>
    obtain ⟨f, rfl⟩ : ∃ f, fuel = f + 1 := by
      cases fuel
      · simp at h
      · exact ⟨_, rfl⟩
    have hr : r.length ≤ f := by simp at h; omega
    by_cases h1 : c = '&'
    · subst h1
      show htmlUnescapeF (f + 1) ('&' :: 'a' :: 'm' :: 'p' :: ';' :: htmlEscape r) = _
      simp only [htmlUnescapeF, if_pos rfl]
      rw [show entityMatch ('a' :: 'm' :: 'p' :: ';' :: htmlEscape r)
            = some ('&', htmlEscape r) from rfl]
      simp [ih f hr]
    · by_cases h2 : c = '<'
      · subst h2
        show htmlUnescapeF (f + 1) ('&' :: 'l' :: 't' :: ';' :: htmlEscape r) = _
        simp only [htmlUnescapeF, if_pos rfl]
        rw [show entityMatch ('l' :: 't' :: ';' :: htmlEscape r)
              = some ('<', htmlEscape r) from rfl]
        simp [ih f hr]
      · by_cases h3 : c = '>'
        · subst h3
          show htmlUnescapeF (f + 1) ('&' :: 'g' :: 't' :: ';' :: htmlEscape r) = _
          simp only [htmlUnescapeF, if_pos rfl]
          rw [show entityMatch ('g' :: 't' :: ';' :: htmlEscape r)
                = some ('>', htmlEscape r) from rfl]
          simp [ih f hr]
        · by_cases h4 : c = '"'
          · subst h4
            show htmlUnescapeF (f + 1) ('&' :: 'q' :: 'u' :: 'o' :: 't' :: ';' :: htmlEscape r) = _
            simp only [htmlUnescapeF, if_pos rfl]
            rw [show entityMatch ('q' :: 'u' :: 'o' :: 't' :: ';' :: htmlEscape r)
                  = some ('"', htmlEscape r) from rfl]
            simp [ih f hr]
          · by_cases h5 : c = aposChar
            · subst h5
              show htmlUnescapeF (f + 1) ('&' :: '#' :: 'x' :: '2' :: '7' :: ';' :: htmlEscape r) = _
              simp only [htmlUnescapeF, if_pos rfl]
              rw [show entityMatch ('#' :: 'x' :: '2' :: '7' :: ';' :: htmlEscape r)
                    = some (aposChar, htmlEscape r) from rfl]
              simp [ih f hr]
            · show htmlUnescapeF (f + 1) (escapeChar c ++ htmlEscape r) = _
              rw [show escapeChar c = [c] by simp [escapeChar, h1, h2, h3, h4, h5]]
              rw [List.singleton_append]
              simp only [htmlUnescapeF, if_neg h1]
              rw [ih f hr]

theorem htmlUnescape_htmlEscape (s : List Char) :
    htmlUnescape (htmlEscape s) = s :=
  htmlUnescapeF_htmlEscape _ s (htmlEscape_length_ge s)

theorem pStrBodyGo_spec (s : List Char) :
    ∀ (acc rest : List Char), s.all plainChar = true →
      pStrBodyGo acc (s ++ '"' :: rest) = some (String.mk (acc ++ s), rest) := by
  induction s with
  | nil =>
    intro acc rest _
    simp [pStrBodyGo]
  | cons c cs ih =>
    intro acc rest hp
    simp only [List.all_cons, Bool.and_eq_true] at hp
    have hc : ¬ c = '"' := by
      intro e
      subst e
      simp [plainChar] at hp
    simp only [List.cons_append, pStrBodyGo, if_neg hc]
    simp only [List.append_eq]
    rw [ih (acc ++ [c]) rest hp.2]
    simp

theorem digitChr_isDigit (d : Nat) (h : d < 10) : (digitChr d).isDigit = true := by
  interval_cases d <;> decide

theorem digitChr_toNat (d : Nat) (h : d < 10) : (digitChr d).toNat - 48 = d := by
  interval_cases d <;> decide

theorem natChars_ne_nil (n : Nat) : natChars n ≠ [] := by
  rw [natChars]
  split <;> simp

theorem natChars_all_digits (n : Nat) : (natChars n).all Char.isDigit = true := by
  induction n using Nat.strong_induction_on with
  | _ n ih =>
    rw [natChars]
    split
    · next h => simp [digitChr_isDigit n h]
    · next h =>
      have hd : n / 10 < n := Nat.div_lt_self (by omega) (by omega)
      simp [ih _ hd, digitChr_isDigit (n % 10) (Nat.mod_lt _ (by omega))]

theorem pNumGo_digits (ds : List Char) :
    ∀ (acc : Nat) (rest : List Char), ds.all Char.isDigit = true →
      pNumGo acc (ds ++ rest) = pNumGo (digitsFold acc ds) rest := by
  induction ds with
  | nil => intro acc rest _; simp [digitsFold]
  | cons c cs ih =>
    intro acc rest hd
    simp only [List.all_cons, Bool.and_eq_true] at hd
    simp only [List.cons_append, pNumGo, if_pos hd.1]
    simp only [List.append_eq]
    rw [ih _ rest hd.2]
    simp [digitsFold]

theorem pNumGo_stop (acc : Nat) (rest : List Char)
    (h : ∀ c cs, rest = c :: cs → c.isDigit = false) :
    pNumGo acc rest = (acc, rest) := by
  cases rest with
  | nil => simp [pNumGo]
  | cons c cs => simp [pNumGo, h c cs rfl]

theorem digitsFold_natChars (n : Nat) :
    ∀ acc : Nat, digitsFold acc (natChars n) = acc * 10 ^ (natChars n).length + n := by
  induction n using Nat.strong_induction_on with
  | _ n ih =>
    intro acc
    rw [natChars]
    split
    · next h =>
      simp [digitsFold, digitChr_toNat n h]
    · next h =>
      have hd : n / 10 < n := Nat.div_lt_self (by omega) (by omega)
      have hfold : ∀ a, digitsFold a (natChars (n / 10) ++ [digitChr (n % 10)])
          = digitsFold (digitsFold a (natChars (n / 10))) [digitChr (n % 10)] := by
        intro a
        simp [digitsFold]
      rw [hfold, ih _ hd]
      simp only [digitsFold, List.foldl_cons, List.foldl_nil, List.length_append,
        List.length_singleton]
      rw [digitChr_toNat (n % 10) (Nat.mod_lt _ (by omega))]
      have : acc * 10 ^ ((natChars (n / 10)).length + 1)
          = acc * 10 ^ (natChars (n / 10)).length * 10 := by ring
      rw [this]
      omega

theorem jsize_pos (j : JsonVal) : 1 ≤ jsize j := by
  cases j <;> simp [jsize]

theorem stringMk_data (s : String) : String.mk s.data = s := by
  cases s
  rfl

theorem jsonDumps_ne_nil (j : JsonVal) : jsonDumps j ≠ [] := by
  cases j with
  | jnull => simp [jsonDumps]
  | jbool b => cases b <;> simp [jsonDumps]
  | jnum n => simpa [jsonDumps] using natChars_ne_nil n
  | jstr s => simp [jsonDumps]
  | jarr xs => cases xs <;> simp [jsonDumps]
  | jobj ps => cases ps <;> simp [jsonDumps]

theorem isDigit_ne_rbracket (c : Char) (h : c.isDigit = true) : c ≠ ']' := by
  intro e
  subst e
  revert h
  decide

theorem jsonDumps_head_ne_rbracket (j : JsonVal) (c : Char) (cs : List Char)
    (h : jsonDumps j = c :: cs) : c ≠ ']' := by
  cases j with
  | jnull =>
    simp [jsonDumps] at h
    rw [← h.1]
    decide
  | jbool b =>
    cases b <;> simp [jsonDumps] at h <;> rw [← h.1] <;> decide
  | jnum n =>
    simp only [jsonDumps] at h
    have hd := natChars_all_digits n
    rw [h] at hd
    simp only [List.all_cons, Bool.and_eq_true] at hd
    exact isDigit_ne_rbracket c hd.1
  | jstr s =>
    simp [jsonDumps] at h
    rw [← h.1]
    decide
  | jarr xs =>
    cases xs <;> simp [jsonDumps] at h <;> rw [← h.1] <;> decide
  | jobj ps =>
    cases ps <;> simp [jsonDumps] at h <;> rw [← h.1] <;> decide

theorem isDigit_ne_delims (c : Char) (h : c.isDigit = true) :
    c ≠ 'n' ∧ c ≠ 't' ∧ c ≠ 'f' ∧ c ≠ '"' ∧ c ≠ '[' ∧ c ≠ lbrace := by
  refine ⟨?_, ?_, ?_, ?_, ?_, ?_⟩ <;> (intro e; subst e; revert h; decide)

theorem dumpsTail_append_head (xs : List JsonVal) (rest : List Char) :
    ∀ c cs, dumpsTail xs ++ ']' :: rest = c :: cs → c.isDigit = false := by
  cases xs with
  | nil =>
    intro c cs h
    simp [dumpsTail] at h
    rw [← h.1]
    decide
  | cons x xs =>
    intro c cs h
    simp [dumpsTail] at h
    rw [← h.1]
    decide

theorem dumpsPairsTail_append_head (ps : List (String × JsonVal)) (rest : List Char) :
    ∀ c cs, dumpsPairsTail ps ++ rbrace :: rest = c :: cs → c.isDigit = false := by
  cases ps with
  | nil =>
    intro c cs h
    simp [dumpsPairsTail] at h
    rw [← h.1]
    decide
  | cons p ps =>
    intro c cs h
    simp [dumpsPairsTail] at h
    rw [← h.1]
    decide

theorem pJson_dumps_main : ∀ fuel : Nat,
    (∀ (j : JsonVal) (rest : List Char), jsize j ≤ fuel → plainJson j = true →
      (∀ c cs, rest = c :: cs → c.isDigit = false) →
      pJson fuel (jsonDumps j ++ rest) = some (j, rest))
    ∧ (∀ (xs : List JsonVal) (rest : List Char), jsizeL xs + 1 ≤ fuel → plainList xs = true →
      pArrTail fuel (dumpsTail xs ++ ']' :: rest) = some (xs, rest))
    ∧ (∀ (k : String) (v : JsonVal) (rest : List Char), jsize v + 1 ≤ fuel →
      k.data.all plainChar = true → plainJson v = true →
      (∀ c cs, rest = c :: cs → c.isDigit = false) →
      pPair fuel (dumpPair (k, v) ++ rest) = some ((k, v), rest))
    ∧ (∀ (ps : List (String × JsonVal)) (rest : List Char), jsizeP ps + 1 ≤ fuel →
      plainPairs ps = true →
      pObjTail fuel (dumpsPairsTail ps ++ rbrace :: rest) = some (ps, rest)) := by
  intro fuel
  induction fuel with
  | zero =>
    refine ⟨?_, ?_, ?_, ?_⟩
    · intro j rest hsz _ _
      exact absurd hsz (by have := jsize_pos j; omega)
    · intro xs rest hsz _
      omega
    · intro k v rest hsz _ _ _
      omega
    · intro ps rest hsz _
      omega
  | succ f ih =>
    obtain ⟨ihJ, ihA, ihP, ihO⟩ := ih
    refine ⟨?_, ?_, ?_, ?_⟩
    · -- one JSON value
      intro j rest hsz hp hnd
      cases j with
      | jnull =>
        simp [jsonDumps, pJson]
      | jbool b =>
        cases b <;> simp [jsonDumps, pJson]
      | jnum n =>
        have hd := natChars_all_digits n
        rcases hn : natChars n with _ | ⟨c, cs⟩
        · exact absurd hn (natChars_ne_nil n)
        · rw [hn] at hd
          simp only [List.all_cons, Bool.and_eq_true] at hd
          have hcdig := hd.1
          obtain ⟨h1, h2, h3, h4, h5, h6⟩ := isDigit_ne_delims c hcdig
          rw [show jsonDumps (JsonVal.jnum n) = natChars n from by simp [jsonDumps], hn]
          simp only [List.cons_append, pJson, if_neg h1, if_neg h2, if_neg h3, if_neg h4,
            if_neg h5, if_neg h6, if_pos hcdig, List.append_eq]
          have e1 : c :: (cs ++ rest) = natChars n ++ rest := by rw [hn]; simp
          rw [e1, pNumGo_digits (natChars n) 0 rest (by rw [hn]; simp [hd.1, hd.2]),
            digitsFold_natChars, pNumGo_stop _ _ hnd]
          simp
      | jstr s =>
        have hplain : s.data.all plainChar = true := by simpa [plainJson] using hp
        rw [show jsonDumps (JsonVal.jstr s) = '"' :: s.data ++ ['"'] from by simp [jsonDumps]]
        simp only [List.cons_append, List.append_assoc, List.singleton_append, List.nil_append]
        simp only [pJson, if_neg (by decide : ¬(('"' : Char) = 'n')),
          if_neg (by decide : ¬(('"' : Char) = 't')),
          if_neg (by decide : ¬(('"' : Char) = 'f')),
          if_pos (rfl : ('"' : Char) = '"'), if_true]
        simp [pStrBodyGo_spec s.data [] rest hplain, stringMk_data]
      | jarr xs =>
        cases xs with
        | nil =>
          simp [jsonDumps, pJson]
        | cons x xs =>
          have hx : jsize x ≤ f := by simp [jsize, jsizeL] at hsz; omega
          have hxs : jsizeL xs + 1 ≤ f := by simp [jsize, jsizeL] at hsz; omega
          have hpx : plainJson x = true := by
            simp only [plainJson, plainList, Bool.and_eq_true] at hp
            exact hp.1
          have hpxs : plainList xs = true := by
            simp only [plainJson, plainList, Bool.and_eq_true] at hp
            exact hp.2
          rw [show jsonDumps (JsonVal.jarr (x :: xs))
                = '[' :: (jsonDumps x ++ dumpsTail xs) ++ [']'] from by simp [jsonDumps]]
          rcases hjd : jsonDumps x with _ | ⟨c2, cs2⟩
          · exact absurd hjd (jsonDumps_ne_nil x)
          · have hc2 : c2 ≠ ']' := jsonDumps_head_ne_rbracket x c2 cs2 hjd
            have hrec : pJson f (jsonDumps x ++ (dumpsTail xs ++ ']' :: rest))
                = some (x, dumpsTail xs ++ ']' :: rest) :=
              ihJ x _ hx hpx (dumpsTail_append_head xs rest)
            rw [hjd] at hrec
            simp only [List.cons_append, List.append_assoc, List.nil_append,
              List.append_eq] at hrec
            simp only [List.cons_append, List.append_assoc, List.singleton_append,
              List.nil_append]
            simp only [pJson, if_neg (by decide : ¬(('[' : Char) = 'n')),
              if_neg (by decide : ¬(('[' : Char) = 't')),
              if_neg (by decide : ¬(('[' : Char) = 'f')),
              if_neg (by decide : ¬(('[' : Char) = '"')),
              if_pos (rfl : ('[' : Char) = '['), if_true, if_neg hc2]
            simp [hrec, ihA xs rest hxs hpxs]
      | jobj ps =>
        cases ps with
        | nil =>
          rw [show jsonDumps (JsonVal.jobj []) = [lbrace, rbrace] from by simp [jsonDumps]]
          simp only [List.cons_append, List.nil_append]
          simp only [pJson, if_neg (by decide : ¬(lbrace = 'n')),
            if_neg (by decide : ¬(lbrace = 't')), if_neg (by decide : ¬(lbrace = 'f')),
            if_neg (by decide : ¬(lbrace = '"')), if_neg (by decide : ¬(lbrace = '[')),
            if_pos (rfl : lbrace = lbrace), if_true]
        | cons p ps =>
          obtain ⟨k, v⟩ := p
          have hv : jsize v + 1 ≤ f := by simp [jsize, jsizeP] at hsz; omega
          have hps : jsizeP ps + 1 ≤ f := by simp [jsize, jsizeP] at hsz; omega
          have hp' : k.data.all plainChar = true ∧ plainJson v = true
              ∧ plainPairs ps = true := by
            simp only [plainJson, plainPairs, Bool.and_eq_true] at hp
            exact ⟨hp.1.1, hp.1.2, hp.2⟩
          have hrecP : pPair f (dumpPair (k, v) ++ (dumpsPairsTail ps ++ rbrace :: rest))
              = some ((k, v), dumpsPairsTail ps ++ rbrace :: rest) :=
            ihP k v _ hv hp'.1 hp'.2.1 (dumpsPairsTail_append_head ps rest)
          have hrecO := ihO ps rest hps hp'.2.2
          rw [show jsonDumps (JsonVal.jobj ((k, v) :: ps))
                = lbrace :: (dumpPair (k, v) ++ dumpsPairsTail ps) ++ [rbrace] from
              by simp [jsonDumps]]
          simp only [dumpPair, List.cons_append, List.append_assoc, List.nil_append,
            List.append_eq] at hrecP
          simp only [dumpPair, List.cons_append, List.append_assoc, List.singleton_append,
            List.nil_append]
          simp only [pJson, if_neg (by decide : ¬(lbrace = 'n')),
            if_neg (by decide : ¬(lbrace = 't')), if_neg (by decide : ¬(lbrace = 'f')),
            if_neg (by decide : ¬(lbrace = '"')), if_neg (by decide : ¬(lbrace = '[')),
            if_pos (rfl : lbrace = lbrace), if_true,
            if_neg (by decide : ¬(('"' : Char) = rbrace))]
          simp [hrecP, hrecO]
    · -- rest of an array
      intro xs rest hsz hp
      cases xs with
      | nil =>
        simp [dumpsTail, pArrTail]
      | cons x xs =>
        have hx : jsize x ≤ f := by simp [jsizeL] at hsz; omega
        have hxs : jsizeL xs + 1 ≤ f := by simp [jsizeL] at hsz; omega
        simp only [plainList, Bool.and_eq_true] at hp
        have hrec : pJson f (jsonDumps x ++ (dumpsTail xs ++ ']' :: rest))
            = some (x, dumpsTail xs ++ ']' :: rest) :=
          ihJ x _ hx hp.1 (dumpsTail_append_head xs rest)
        have htail := ihA xs rest hxs hp.2
        simp only [dumpsTail, List.cons_append, List.append_assoc, pArrTail,
          if_neg (by decide : ¬((',' : Char) = ']')), if_pos (rfl : (',' : Char) = ','),
          if_true]
        simp [hrec, htail]
    · -- one key/value pair
      intro k v rest hsz hpk hpv hnd
      have hrec : pJson f (jsonDumps v ++ rest) = some (v, rest) :=
        ihJ v rest (by omega) hpv hnd
      simp only [dumpPair, List.cons_append, List.append_assoc, List.nil_append, pPair,
        if_pos (rfl : ('"' : Char) = '"'), if_true]
      simp [pStrBodyGo_spec k.data [] (':' :: (jsonDumps v ++ rest)) hpk, hrec,
        stringMk_data]
    · -- rest of an object
      intro ps rest hsz hp
      cases ps with
      | nil =>
        simp [dumpsPairsTail, pObjTail]
      | cons p ps =>
        obtain ⟨k, v⟩ := p
        have hv : jsize v + 1 ≤ f := by simp [jsizeP] at hsz; omega
        have hps : jsizeP ps + 1 ≤ f := by simp [jsizeP] at hsz; omega
        have hp' : k.data.all plainChar = true ∧ plainJson v = true
            ∧ plainPairs ps = true := by
          simp only [plainPairs, Bool.and_eq_true] at hp
          exact ⟨hp.1.1, hp.1.2, hp.2⟩
        have hrecP : pPair f (dumpPair (k, v) ++ (dumpsPairsTail ps ++ rbrace :: rest))
            = some ((k, v), dumpsPairsTail ps ++ rbrace :: rest) :=
          ihP k v _ hv hp'.1 hp'.2.1 (dumpsPairsTail_append_head ps rest)
        have hrecO := ihO ps rest hps hp'.2.2
        simp only [dumpPair, List.cons_append, List.append_assoc, List.nil_append,
          List.append_eq] at hrecP
        simp only [dumpsPairsTail, dumpPair, List.cons_append, List.append_assoc,
          List.nil_append, pObjTail, if_neg (by decide : ¬((',' : Char) = rbrace)),
          if_pos (rfl : (',' : Char) = ','), if_true]
        simp [hrecP, hrecO]

theorem jsize_le_dumps : ∀ n : Nat,
    (∀ j : JsonVal, jsize j ≤ n → jsize j ≤ (jsonDumps j).length)
    ∧ (∀ xs : List JsonVal, jsizeL xs ≤ n → jsizeL xs ≤ (dumpsTail xs).length)
    ∧ (∀ ps : List (String × JsonVal), jsizeP ps ≤ n → jsizeP ps ≤ (dumpsPairsTail ps).length) := by
  intro n
  induction n using Nat.strong_induction_on with
  | _ n ih =>
    refine ⟨?_, ?_, ?_⟩
    · intro j hj
      cases j with
      | jnull => simp [jsize, jsonDumps]
      | jbool b => cases b <;> simp [jsize, jsonDumps]
      | jnum m =>
        have h1 : 1 ≤ (natChars m).length :=
          List.length_pos.mpr (natChars_ne_nil m)
        simp only [jsize, jsonDumps]
        omega
      | jstr s => simp [jsize, jsonDumps]
      | jarr xs =>
        cases xs with
        | nil => simp [jsize, jsizeL, jsonDumps]
        | cons x xs =>
          have hszx : jsize x < n := by
            have h1 := jsize_pos x
            simp [jsize, jsizeL] at hj
            omega
          have hszxs : jsizeL xs < n := by
            have h1 := jsize_pos x
            simp [jsize, jsizeL] at hj
            omega
          have bx := (ih (jsize x) hszx).1 x le_rfl
          have bxs := (ih (jsizeL xs) hszxs).2.1 xs le_rfl
          simp only [jsize, jsizeL, jsonDumps, List.length_append, List.length_cons,
            List.length_singleton]
          omega
      | jobj ps =>
        cases ps with
        | nil => simp [jsize, jsizeP, jsonDumps]
        | cons p ps =>
          obtain ⟨k, v⟩ := p
          have hszv : jsize v < n := by
            have h1 := jsize_pos v
            simp [jsize, jsizeP] at hj
            omega
          have hszps : jsizeP ps < n := by
            have h1 := jsize_pos v
            simp [jsize, jsizeP] at hj
            omega
          have bv := (ih (jsize v) hszv).1 v le_rfl
          have bps := (ih (jsizeP ps) hszps).2.2 ps le_rfl
          simp only [jsize, jsizeP, jsonDumps, dumpPair, List.length_append,
            List.length_cons, List.length_singleton]
          omega
    · intro xs h
      cases xs with
      | nil => simp [jsizeL, dumpsTail]
      | cons x xs =>
        have hszx : jsize x < n := by
          simp [jsizeL] at h
          omega
        have hszxs : jsizeL xs < n := by
          have h1 := jsize_pos x
          simp [jsizeL] at h
          omega
        have bx := (ih (jsize x) hszx).1 x le_rfl
        have bxs := (ih (jsizeL xs) hszxs).2.1 xs le_rfl
        simp only [jsizeL, dumpsTail, List.length_append, List.length_cons]
        omega
    · intro ps h
      cases ps with
      | nil => simp [jsizeP, dumpsPairsTail]
      | cons p ps =>
        obtain ⟨k, v⟩ := p
        have hszv : jsize v < n := by
          simp [jsizeP] at h
          omega
        have hszps : jsizeP ps < n := by
          have h1 := jsize_pos v
          simp [jsizeP] at h
          omega
        have bv := (ih (jsize v) hszv).1 v le_rfl
        have bps := (ih (jsizeP ps) hszps).2.2 ps le_rfl
        simp only [jsizeP, dumpsPairsTail, dumpPair, List.length_append, List.length_cons]
        omega

theorem jsonParse_jsonDumps (j : JsonVal) (hp : plainJson j = true) :
    jsonParse (jsonDumps j) = some j := by
  have hb : jsize j ≤ (jsonDumps j).length + 1 := by
    have := (jsize_le_dumps (jsize j)).1 j le_rfl
    omega
  have h := (pJson_dumps_main ((jsonDumps j).length + 1)).1 j [] hb hp
    (by intro c cs hcc; simp at hcc)
  rw [List.append_nil] at h
  unfold jsonParse
  rw [h]

theorem analyze_widget_data_other_state (st : MonitorState) (cur : WidgetSig) (today : String) :
    (analyze_widget_data st cur today).1.lastAvailableDates = st.lastAvailableDates
    ∧ (analyze_widget_data st cur today).1.fallbackPage = st.fallbackPage
    ∧ (analyze_widget_data st cur today).1.checkCount = st.checkCount := by
  unfold analyze_widget_data
  cases st.lastWidget with
  | none => simp
  | some last =>
    by_cases hc : 2 ≤ widgetChangeCount last cur
    · simp [hc]
    · simp [hc]

theorem analyze_page_changes_other_state (st : MonitorState) (h s : Int) (today : String) :
    (analyze_page_changes st h s today).1.lastAvailableDates = st.lastAvailableDates
    ∧ (analyze_page_changes st h s today).1.lastWidget = st.lastWidget
    ∧ (analyze_page_changes st h s today).1.checkCount = st.checkCount := by
  unfold analyze_page_changes
  cases st.fallbackPage with
  | none => simp
  | some p =>
    obtain ⟨lh, ls⟩ := p
    by_cases hc : ¬h = lh ∨ 500 < (s - ls).natAbs
    · simp [hc]
    · simp [hc]

/-- C9: the availability differ is the pure set difference
diff(previous, current) = current - previous; diff(S, S) = the empty set;
diff(empty, two dates) returns both; diff of a one-date baseline against a
superset returns exactly the new date. -/
theorem c9_availability_diff (p c S : Finset String) (d1 d2 : String) :
    availability_diff p c = c \ p
    ∧ availability_diff S S = ∅
    ∧ availability_diff ∅ {d1, d2} = {d1, d2}
    ∧ (d1 ≠ d2 → availability_diff {d1} {d1, d2} = {d2}) := by
  refine ⟨rfl, Finset.sdiff_self S, by simp [availability_diff], ?_⟩
  intro hne
  ext x
  simp only [availability_diff, Finset.mem_sdiff, Finset.mem_insert, Finset.mem_singleton]
  constructor
  · rintro ⟨h1 | h2, hn⟩
    · exact absurd h1 hn
    · exact h2
  · intro hx
    subst hx
    exact ⟨Or.inr rfl, fun e => hne e.symm⟩

/-- Witness for C9 at concrete dates. -/
theorem c9_witness :
    availability_diff {"2025-07-10"} {"2025-07-10", "2025-07-11"} = {"2025-07-11"} :=
  (c9_availability_diff ∅ ∅ ∅ "2025-07-10" "2025-07-11").2.2.2 (by decide)

/-- C4: when no structured strategy produced data (no embedded attribute, no
script capture accepted, no API payload), extraction reaches the structural
widget analysis, which is built from total operations and always returns the
widget signature — the guaranteed fallback cannot fail. -/
theorem c4_signal_fallback_total (doc : Document)
    (h1 : doc.pageServerData = none)
    (h2 : scanScripts doc.scriptMatches = none)
    (h3 : doc.apiSuccesses = []) :
    extract_sirvoy_data doc = ExtractOutcome.widgetMonitoring (widgetSignatureOf doc) := by
  unfold extract_sirvoy_data
  rw [h1, h2, h3]

/-- Witness for C4 on a document where every structured strategy fails. -/
theorem c4_witness :
    extract_sirvoy_data emptyDoc
      = ExtractOutcome.widgetMonitoring (widgetSignatureOf emptyDoc) :=
  c4_signal_fallback_total emptyDoc rfl rfl rfl

/-- C1: on a freshly constructed MonitorState, the first poll cycle
establishes a baseline and reports no change in every mode — the widget
analyzer stores the signature and returns an empty change list, the fallback
analyzer stores the page fingerprint and returns an empty change list, and no
mode sends a notification, whatever the observation contains. -/
theorem c1_first_cycle_baseline_no_notification
    (today : String) (sig : WidgetSig) (h s : Int) (src : String)
    (dates : List String) (bc : Nat) :
    (check_availability initialState today (some (ObservedData.widget sig))).notified = false
    ∧ (check_availability initialState today
        (some (ObservedData.widget sig))).state.lastWidget = some sig
    ∧ (analyze_widget_data { initialState with checkCount := 1 } sig today).2.1 = []
    ∧ (check_availability initialState today
        (some (ObservedData.fallbackPage h s))).notified = false
    ∧ (check_availability initialState today
        (some (ObservedData.fallbackPage h s))).state.fallbackPage = some (h, s)
    ∧ (analyze_page_changes { initialState with checkCount := 1 } h s today).2.1 = []
    ∧ (check_availability initialState today
        (some (ObservedData.realData src dates bc))).notified = false := by
  refine ⟨?_, ?_, ?_, ?_, ?_, ?_, ?_⟩
  · simp [check_availability, analyze_widget_data, initialState]
  · simp [check_availability, analyze_widget_data, initialState]
  · simp [analyze_widget_data, initialState]
  · simp [check_availability, analyze_page_changes, initialState]
  · simp [check_availability, analyze_page_changes, initialState]
  · simp [analyze_page_changes, initialState]
  · simp only [check_availability, initialState]
    split_ifs <;> simp_all

/-- C3 counterexample: run a structured cycle (populating the stored
available-date set) and then a widget cycle from the resulting state; both
the structured baseline and the widget baseline are populated afterwards, and
the widget-mode cycle did not reset the structured baseline — the claimed
invariant "at most one baseline populated, the other reset on mode switch"
fails on this concrete two-cycle run. -/
theorem c3_counterexample :
    ((check_availability
        (check_availability initialState "2025-01-01"
          (some (ObservedData.realData "sirvoy_api_x" ["2025-07-01"] 0))).state
        "2025-01-02" (some (ObservedData.widget sigZero))).state.lastAvailableDates
      = {"2025-07-01"})
    ∧ ((check_availability
        (check_availability initialState "2025-01-01"
          (some (ObservedData.realData "sirvoy_api_x" ["2025-07-01"] 0))).state
        "2025-01-02" (some (ObservedData.widget sigZero))).state.lastWidget
      = some sigZero) := by
  constructor <;> rfl

/-- C3 amended: the three baseline fields are independent and persistent — a
cycle in one extraction mode never resets another mode's baseline; a widget
cycle leaves the stored date set and page baseline unchanged, a fallback
cycle leaves the widget baseline and date set unchanged, and a real-data
cycle leaves the widget and page baselines unchanged, so several baselines
can be populated at once and returning to a mode reuses its stale baseline. -/
theorem c3_baselines_independent_amended (st : MonitorState) (today : String)
    (sig : WidgetSig) (h s : Int) (src : String) (dates : List String) (bc : Nat) :
    ((check_availability st today (some (ObservedData.widget sig))).state.lastAvailableDates
        = st.lastAvailableDates
      ∧ (check_availability st today (some (ObservedData.widget sig))).state.fallbackPage
        = st.fallbackPage)
    ∧ ((check_availability st today
          (some (ObservedData.fallbackPage h s))).state.lastAvailableDates
        = st.lastAvailableDates
      ∧ (check_availability st today (some (ObservedData.fallbackPage h s))).state.lastWidget
        = st.lastWidget)
    ∧ ((check_availability st today (some (ObservedData.realData src dates bc))).state.lastWidget
        = st.lastWidget
      ∧ (check_availability st today
          (some (ObservedData.realData src dates bc))).state.fallbackPage
        = st.fallbackPage) := by
  refine ⟨⟨?_, ?_⟩, ⟨?_, ?_⟩, ?_, ?_⟩
  · simp only [check_availability]
    have hw := analyze_widget_data_other_state { st with checkCount := st.checkCount + 1 } sig today
    split_ifs <;> simp [hw.1]
  · simp only [check_availability]
    have hw := analyze_widget_data_other_state { st with checkCount := st.checkCount + 1 } sig today
    split_ifs <;> simp [hw.2.1]
  · simp only [check_availability]
    have hw := analyze_page_changes_other_state { st with checkCount := st.checkCount + 1 } h s today
    split_ifs <;> simp [hw.1]
  · simp only [check_availability]
    have hw := analyze_page_changes_other_state { st with checkCount := st.checkCount + 1 } h s today
    split_ifs <;> simp [hw.2.1]
  · simp only [check_availability]
    split_ifs <;> simp
  · simp only [check_availability]
    split_ifs <;> simp

/-- C2 counterexample: the analyzer counts the four element counts as four
independent signals, not one.  Against sigBase, the signature sigTwoCounts
differs in exactly one of the specification's four signals (an element count
differs) yet the code reports a change, because two of its seven per-count
signals fire. -/
theorem c2_counterexample :
    specSignalCount sigBase sigTwoCounts = 1
    ∧ (analyze_widget_data stBase sigTwoCounts "2025-01-02").2.1 = ["2025-01-02"] := by
  constructor <;> rfl

/-- C2 amended: with a stored widget baseline, the analyzer reports a change
exactly when at least 2 of its SEVEN signals (content hash; size beyond 100
bytes; each of the four element counts separately; keyword set) differ; one
differing signal is never reported, and a pair differing in content hash and
keyword set is always reported. -/
theorem c2_signature_threshold_amended (st : MonitorState) (base cur : WidgetSig)
    (today : String) (hb : st.lastWidget = some base) :
    ((analyze_widget_data st cur today).2.1 ≠ [] ↔ 2 ≤ widgetChangeCount base cur)
    ∧ (widgetChangeCount base cur = 1 → (analyze_widget_data st cur today).2.1 = [])
    ∧ (cur.hash ≠ base.hash → cur.keywords.toFinset ≠ base.keywords.toFinset →
        (analyze_widget_data st cur today).2.1 = [today]) := by
  unfold analyze_widget_data
  rw [hb]
  refine ⟨?_, ?_, ?_⟩
  · by_cases hc : 2 ≤ widgetChangeCount base cur
    · simp [hc]
    · simp [hc]
  · intro h1
    simp [if_neg (show ¬ 2 ≤ widgetChangeCount base cur by omega)]
  · intro hh hk
    have hge : 2 ≤ widgetChangeCount base cur := by
      unfold widgetChangeCount
      rw [if_pos hh, if_pos hk]
      omega
    simp [hge]

/-- Witness for the amended C2: a signature differing from sigBase in content
hash and keyword set is reported as changed. -/
theorem c2_amended_witness :
    (analyze_widget_data stBase ⟨2, 1000, 0, 0, 0, 0, ["available"]⟩ "2025-01-02").2.1
      = ["2025-01-02"] :=
  (c2_signature_threshold_amended stBase sigBase ⟨2, 1000, 0, 0, 0, 0, ["available"]⟩
    "2025-01-02" rfl).2.2 (by decide) (by decide)

/-- C10: in real-data mode a notification fires only when the stored
available-date set is non-empty; with an empty stored set (the initial state
included) newly appearing dates produce no notification; and the stored set
is overwritten exactly on cycles whose current available-date list is
non-empty. -/
theorem c10_real_mode_empty_baseline (st : MonitorState) (today src : String)
    (dates : List String) (bc : Nat) (hsrc : strStartsWith src "sirvoy_" = true) :
    ((check_availability st today (some (ObservedData.realData src dates bc))).notified = true
        → st.lastAvailableDates ≠ ∅)
    ∧ (st.lastAvailableDates = ∅ →
        (check_availability st today (some (ObservedData.realData src dates bc))).notified
          = false)
    ∧ (check_availability st today
        (some (ObservedData.realData src dates bc))).state.lastAvailableDates
      = (if dates.isEmpty then st.lastAvailableDates else dates.toFinset)
    ∧ initialState.lastAvailableDates = ∅ := by
  refine ⟨?_, ?_, ?_, rfl⟩
  · simp only [check_availability, hsrc]
    split_ifs <;> simp_all
  · intro he
    simp only [check_availability, hsrc]
    split_ifs <;> simp_all
  · simp only [check_availability, hsrc]
    split_ifs <;> simp_all

/-- Witness for C10: a first real-data cycle with a new available date sends
no notification because the stored set is empty. -/
theorem c10_witness :
    (check_availability initialState "2025-01-01"
      (some (ObservedData.realData "sirvoy_widget_script" ["2025-07-11"] 0))).notified
      = false :=
  (c10_real_mode_empty_baseline initialState "2025-01-01" "sirvoy_widget_script"
    ["2025-07-11"] 0 rfl).2.1 rfl

/-- C6 counterexample: a cycle whose every fetch fails does not leave
MonitorState unchanged — the poll counter advances from 0 to 1; and a cycle
where only the widget fetch fails is not reported as a failed cycle at all,
it proceeds to baseline fallback-page monitoring. -/
theorem c6_counterexample :
    (check_availability initialState "2025-01-01" none).state.checkCount = 1
    ∧ initialState.checkCount = 0
    ∧ (poll_cycle initialState "2025-01-01" none (some (7, 90)) (fun _ => ([], 1))).failed
      = false
    ∧ (poll_cycle initialState "2025-01-01" none (some (7, 90))
        (fun _ => ([], 1))).state.fallbackPage = some (7, 90) := by
  refine ⟨rfl, rfl, rfl, rfl⟩

/-- C6 amended: when the widget fetch and the fallback page fetch both fail
after exhausting their retries, the cycle is caught as failed, returns False,
sends no notification, and leaves every baseline field and the stored date
set unchanged; only the poll counter is incremented. -/
theorem c6_failed_fetch_cycle_amended (st : MonitorState) (today : String)
    (realAnalyze : JsonVal → List String × Nat) :
    (poll_cycle st today none none realAnalyze).notified = false
    ∧ (poll_cycle st today none none realAnalyze).failed = true
    ∧ (poll_cycle st today none none realAnalyze).result = false
    ∧ (poll_cycle st today none none realAnalyze).state.lastAvailableDates
      = st.lastAvailableDates
    ∧ (poll_cycle st today none none realAnalyze).state.lastWidget = st.lastWidget
    ∧ (poll_cycle st today none none realAnalyze).state.fallbackPage = st.fallbackPage
    ∧ (poll_cycle st today none none realAnalyze).state.checkCount = st.checkCount + 1 := by
  refine ⟨?_, ?_, ?_, ?_, ?_, ?_, ?_⟩ <;>
    simp [poll_cycle, fallbackObs, check_availability]

/-- C5 counterexample: on docBadAttr the embedded attribute is malformed
JSON; its parse failure is not caught locally, the whole structured
extraction aborts to the page fallback even though the inline-script strategy
holds an acceptable capture; and on docNoShape a well-formed but
shape-invalid payload is accepted and returned with no validation against the
snapshot shape. -/
theorem c5_counterexample :
    extract_sirvoy_data docBadAttr = ExtractOutcome.pageFallback
    ∧ scanScripts docBadAttr.scriptMatches = some (JsonVal.jarr [])
    ∧ extract_sirvoy_data docNoShape
      = ExtractOutcome.plainData (JsonVal.jarr [JsonVal.jnum 1, JsonVal.jnum 2])
    ∧ specSnapshotShaped (JsonVal.jarr [JsonVal.jnum 1, JsonVal.jnum 2]) = false := by
  refine ⟨rfl, rfl, rfl, rfl⟩

/-- C5 amended: the embedded-attribute strategy accepts any value json.loads
produces, with no shape validation, while a parse failure there aborts the
whole structured extraction into the page fallback; only the inline-script
strategy skips a malformed capture locally and continues with the rest. -/
theorem c5_strategy_validation_amended (doc : Document) (j : JsonVal) (attr : List Char) :
    (doc.pageServerData = some attr → jsonParse (htmlUnescape attr) = some j →
      extract_sirvoy_data doc = ExtractOutcome.plainData j)
    ∧ (doc.pageServerData = some attr → jsonParse (htmlUnescape attr) = none →
      extract_sirvoy_data doc = ExtractOutcome.pageFallback)
    ∧ (∀ (pid : PatternId) (cap : List Char) (rest : List (PatternId × List Char)),
        jsonParse cap = none →
        scanScripts ((pid, cap) :: rest) = scanScripts rest) := by
  refine ⟨?_, ?_, ?_⟩
  · intro ha hp
    simp [extract_sirvoy_data, ha, hp]
  · intro ha hp
    simp [extract_sirvoy_data, ha, hp]
  · intro pid cap rest hp
    simp [scanScripts, hp]

/-- Witness for the amended C5 at concrete documents and captures. -/
theorem c5_amended_witness :
    extract_sirvoy_data docNoShape
      = ExtractOutcome.plainData (JsonVal.jarr [JsonVal.jnum 1, JsonVal.jnum 2])
    ∧ scanScripts [(PatternId.blockedDates, "oops".toList)] = scanScripts [] :=
  ⟨(c5_strategy_validation_amended docNoShape (JsonVal.jarr [JsonVal.jnum 1, JsonVal.jnum 2])
      ("[1,2]".toList)).1 rfl rfl,
   (c5_strategy_validation_amended docNoShape (JsonVal.jarr [JsonVal.jnum 1, JsonVal.jnum 2])
      ("[1,2]".toList)).2.2 PatternId.blockedDates ("oops".toList) [] rfl⟩

/-- C7 counterexample: the fetcher accepts any response outside the 400-599
range, not only 2xx — an oracle answering 304 on the first attempt makes
make_request return it immediately (one request, no retry), yet 304 is not a
2xx status. -/
theorem c7_counterexample :
    (make_request (fun _ => AttemptOutcome.response 304)).1 = Except.ok 304
    ∧ (make_request (fun _ => AttemptOutcome.response 304)).2.requestTimeouts = [30]
    ∧ (make_request (fun _ => AttemptOutcome.response 304)).2.sleeps = []
    ∧ ¬(200 ≤ 304 ∧ 304 < 300) := by
  refine ⟨rfl, rfl, rfl, by omega⟩

/-- C7 amended: make_request makes at most 3 attempts, each with a fixed
30-second timeout, sleeps 2 ^ attempt seconds between consecutive attempts
(1s then 2s), returns the first response whose status raise_for_status
accepts (outside 400-599), and after three rejected attempts propagates the
last underlying error. -/
theorem c7_make_request_amended (oracle : Nat → AttemptOutcome) (s : Nat) :
    (attemptAccepts (oracle 0) = some s →
      make_request oracle = (Except.ok s, ⟨[30], []⟩))
    ∧ (attemptAccepts (oracle 0) = none → attemptAccepts (oracle 1) = some s →
      make_request oracle = (Except.ok s, ⟨[30, 30], [1]⟩))
    ∧ (attemptAccepts (oracle 0) = none → attemptAccepts (oracle 1) = none →
      attemptAccepts (oracle 2) = some s →
      make_request oracle = (Except.ok s, ⟨[30, 30, 30], [1, 2]⟩))
    ∧ (attemptAccepts (oracle 0) = none → attemptAccepts (oracle 1) = none →
      attemptAccepts (oracle 2) = none →
      make_request oracle
        = (Except.error (attemptError (oracle 2)), ⟨[30, 30, 30], [1, 2]⟩)) := by
  have step : ∀ (a : AttemptOutcome) (v : Nat), attemptAccepts a = some v →
      ∃ st, a = AttemptOutcome.response st ∧ ¬(400 ≤ st ∧ st < 600) ∧ st = v := by
    intro a v ha
    cases a with
    | failure e => simp [attemptAccepts] at ha
    | response st =>
      by_cases hc : 400 ≤ st ∧ st < 600
      · simp [attemptAccepts, hc] at ha
      · simp [attemptAccepts, hc] at ha
        exact ⟨st, rfl, hc, ha⟩
  have stepN : ∀ a : AttemptOutcome, attemptAccepts a = none →
      (∃ e, a = AttemptOutcome.failure e)
      ∨ (∃ st, a = AttemptOutcome.response st ∧ 400 ≤ st ∧ st < 600) := by
    intro a ha
    cases a with
    | failure e => exact Or.inl ⟨e, rfl⟩
    | response st =>
      by_cases hc : 400 ≤ st ∧ st < 600
      · exact Or.inr ⟨st, rfl, hc⟩
      · simp [attemptAccepts, hc] at ha
  refine ⟨?_, ?_, ?_, ?_⟩
  · intro h0
    obtain ⟨st, he, hc, rfl⟩ := step _ _ h0
    simp [make_request, make_request_loop, he, hc]
  · intro h0 h1
    obtain ⟨st, he, hc, rfl⟩ := step _ _ h1
    rcases stepN _ h0 with ⟨e, he0⟩ | ⟨st0, he0, hc0⟩
    · simp [make_request, make_request_loop, he, hc, he0]
    · simp [make_request, make_request_loop, he, hc, he0, hc0]
  · intro h0 h1 h2
    obtain ⟨st, he, hc, rfl⟩ := step _ _ h2
    rcases stepN _ h0 with ⟨e, he0⟩ | ⟨st0, he0, hc0⟩ <;>
      rcases stepN _ h1 with ⟨e1, he1⟩ | ⟨st1, he1, hc1⟩ <;>
      simp [make_request, make_request_loop, he, hc, he0, he1, *]
  · intro h0 h1 h2
    rcases stepN _ h0 with ⟨e, he0⟩ | ⟨st0, he0, hc0⟩ <;>
      rcases stepN _ h1 with ⟨e1, he1⟩ | ⟨st1, he1, hc1⟩ <;>
      rcases stepN _ h2 with ⟨e2, he2⟩ | ⟨st2, he2, hc2⟩ <;>
      simp [make_request, make_request_loop, attemptError, he0, he1, he2, *]

/-- Witness for the amended C7: first attempt raises, second returns 200. -/
theorem c7_amended_witness :
    make_request (fun n => if n = 0 then AttemptOutcome.failure "connection reset"
        else AttemptOutcome.response 200)
      = (Except.ok 200, ⟨[30, 30], [1]⟩) :=
  (c7_make_request_amended
    (fun n => if n = 0 then AttemptOutcome.failure "connection reset"
      else AttemptOutcome.response 200) 200).2.1 rfl rfl

/-- C8: a document whose designated container attribute carries the
HTML-entity-encoded serialization of a snapshot payload makes structured
extraction succeed via the highest-priority strategy and return exactly the
encoded payload: decode is the inverse of encode. -/
theorem c8_embedded_attribute_roundtrip (doc : Document) (j : JsonVal)
    (hp : plainJson j = true)
    (ha : doc.pageServerData = some (htmlEscape (jsonDumps j))) :
    extract_sirvoy_data doc = ExtractOutcome.plainData j := by
  simp [extract_sirvoy_data, ha, htmlUnescape_htmlEscape, jsonParse_jsonDumps j hp]

/-- Witness for C8: the concrete snapshot payload snapJson round-trips
through the encoded attribute of docSnap. -/
theorem c8_witness :
    extract_sirvoy_data docSnap = ExtractOutcome.plainData snapJson :=
  c8_embedded_attribute_roundtrip docSnap snapJson
    (by simp [snapJson, plainJson, plainList, plainPairs, plainChar]) rfl
